import Mathlib

/-!
Shallow embedding of the progress/analytics aggregation core of the
practice-problem tracker (source files `src/js/core.js` and
`src/js/js/core.js`), together with theorems settling the frozen claims
about it.

Modelling conventions:
* JS numbers holding counters (`attempts`, `passes`) are `Nat`;
  millisecond timestamps are `Int`.
* A JS object used as a map (a track's progress record) is an
  insertion-ordered association list `List (String × AttemptStat)`.
* A "YYYY-MM-DD" string produced by `toISOString().slice(0, 10)` is
  identified with its UTC day index `⌊t / 86400000⌋`; the time model is a
  fixed-offset clock (no DST), under which `d.setDate(d.getDate() - i)`
  subtracts exactly `i * 86400000` milliseconds.
* `Math.round(x)` on the non-negative rational `100 * p / a` is modelled
  exactly as round-half-up: `(200 * p + a) / (2 * a)` in `Nat` division.
* JS truthiness of a stored `last` timestamp (`if (s.last)`,
  `filter(([, s]) => s.last)`) is `last = some t` with `t ≠ 0`.
* A `fetch`/`loadJson` result is `Except Unit (List Problem)`: `.error ()`
  models a rejected promise, which `Promise.all` propagates.
-/

namespace Tracker

/-- One per-problem attempt record `{attempts, passes, last}` as stored in a
track's progress record (`src/js/js/core.js`, submit handler; read
everywhere in `src/js/core.js`). -/
structure AttemptStat where
  attempts : Nat
  passes : Nat
  last : Option Int
deriving DecidableEq, Repr

/-- A track's progress record: a JS object keyed by problem id, modelled as
an insertion-ordered association list. -/
abbrev ProgressRecord := List (String × AttemptStat)

/-- The parts of a `Problem` the aggregation logic reads (`id` for lookup,
`title` for the recent-activity feed). -/
structure Problem where
  id : String
  title : String
deriving DecidableEq, Repr

/-- JS truthiness of a stored `last` timestamp: `null`/absent and `0` are
falsy (`if (!s.last) return;` in `buildDailySeries`,
`filter(([, st]) => st.last)` in `renderDashboardMulti`). -/
def lastTruthy (s : AttemptStat) : Bool :=
  match s.last with
  | none => false
  | some t => t != 0

/-- UTC calendar-day index of a millisecond timestamp: the model of
`new Date(t).toISOString().slice(0, 10)` used throughout `src/js/core.js`
(the `"YYYY-MM-DD"` string is identified with the day number
`⌊t / 86400000⌋`). -/
def jsDayKey (t : Int) : Int := t.fdiv 86400000

/-- Day key of a timestamp shifted by an offset expressed in local time,
for a host whose local clock runs `tzOffsetMs` milliseconds ahead of UTC.
Modelled from the spec: "compute its calendar-day key in local time"
(§4.3) — the local-time day bucketing that the spec attributes to the
daily-series builder; no such computation exists in the source, which uses
`toISOString()` (UTC). -/
def localDayKey (t tzOffsetMs : Int) : Int := (t + tzOffsetMs).fdiv 86400000

/-- The label list built by `buildDailySeries` (`src/js/core.js:471-477`):
for `i = days - 1` down to `0`, the day key of `now` minus `i` days
(`d.setDate(today.getDate() - i)` followed by `toISOString().slice(0,10)`). -/
def windowLabels (now : Int) (days : Nat) : List Int :=
  (List.range days).map (fun (j : Nat) =>
    jsDayKey (now - ((days : Int) - 1 - (j : Int)) * 86400000))

/-- Count added for one stat: `counts[dayKey] += (s.attempts || 1)`
(`src/js/core.js:485`). -/
def statContribution (s : AttemptStat) : Nat :=
  if s.attempts = 0 then 1 else s.attempts

/-- One step of the bucket-filling loop of `buildDailySeries`
(`src/js/core.js:482-486`): skip a falsy `last`; otherwise add the stat's
contribution to its day's bucket when that day is one of the window labels
(`if (dayKey in counts)`), and drop it silently otherwise. -/
def addStatToCounts (labels : List Int) (counts : Int → Nat) (s : AttemptStat) : Int → Nat :=
  match s.last with
  | none => counts
  | some t =>
    if t = 0 then counts
    else
      let dk := jsDayKey t
      if dk ∈ labels then
        fun d => if d = dk then counts d + statContribution s else counts d
      else counts

/-- The final bucket contents of `buildDailySeries`: every label starts at
`0` (`counts[key] = 0`), then every stat of every progress record is folded
in (`trackKeys.forEach` / `Object.values(p).forEach`). -/
def countsOf (labels : List Int) (recs : List ProgressRecord) : Int → Nat :=
  recs.foldl (fun c rec1 => rec1.foldl (fun c e => addStatToCounts labels c e.2) c)
    (fun _ => 0)

/-- `buildDailySeries(trackKeys, days)` (`src/js/core.js:467-492`):
returns the window labels (oldest first) and the per-day activity counts
(`labels.map(l => counts[l] || 0)`).  The progress records are passed
already parsed; `now` is the current-time timestamp. -/
def buildDailySeries (recs : List ProgressRecord) (now : Int) (days : Nat) :
    List Int × List Nat :=
  let labels := windowLabels now days
  let counts := countsOf labels recs
  (labels, labels.map counts)

/-- The streak loop of `calcStreak` (`src/js/core.js:521-535`), with the
remaining iterations of `for (let offset = 0; offset < 365; offset++)` as
structural fuel (`calcStreak` starts it with fuel `365`, offset `0`,
streak `0`): if day `D - offset` is in the set the streak grows; otherwise
offset `0` is skipped (`continue`) and any later offset stops the walk
(`break`). -/
def calcStreakLoop (s : List Int) (D : Int) : Nat → Nat → Nat → Nat
  | 0, _, streak => streak
  | fuel + 1, offset, streak =>
    if (D - (offset : Int)) ∈ s then calcStreakLoop s D fuel (offset + 1) (streak + 1)
    else if offset = 0 then calcStreakLoop s D fuel (offset + 1) streak
    else streak

/-- `calcStreak(set)` (`src/js/core.js:521-536`): walk backward from
today's day key `D`, up to 365 days. -/
def calcStreak (s : List Int) (D : Int) : Nat :=
  calcStreakLoop s D 365 0 0

/-- `pct(passed, total)` (`src/js/core.js:324`), and the identical inline
accuracy expression `attempts ? Math.round((passes / attempts) * 100) : 0`
(`src/js/core.js:512`): percentage rounded half-up, `0` on a zero
denominator. -/
def pct (passed total : Nat) : Nat :=
  if total = 0 then 0 else (200 * passed + total) / (2 * total)

/-- The derived per-track statistics record (`src/js/core.js:498`). -/
structure TrackStats where
  solved : Nat
  total : Nat
  attempts : Nat
  passes : Nat
  accuracy : Nat
  lastActive : Option Int
  streak : Nat
deriving DecidableEq, Repr

/-- Accumulator of the `Object.values(progress).forEach` fold of
`computeTrackAnalytics` (`src/js/core.js:502-510`). -/
structure FoldAcc where
  attempts : Nat
  passes : Nat
  solved : Nat
  lastActive : Option Int
deriving DecidableEq, Repr

/-- One step of that fold: add `s.attempts || 0` and `s.passes || 0`, count
`s.passes && s.passes > 0` as solved, and keep the running maximum of the
truthy `last` timestamps (`if (!stats.lastActive || d > new
Date(stats.lastActive))`). -/
def statsStep (acc : FoldAcc) (s : AttemptStat) : FoldAcc :=
  ⟨acc.attempts + s.attempts,
   acc.passes + s.passes,
   if 0 < s.passes then acc.solved + 1 else acc.solved,
   match s.last with
   | none => acc.lastActive
   | some t =>
     if t = 0 then acc.lastActive
     else
       match acc.lastActive with
       | none => some t
       | some m => if m < t then some t else some m⟩

/-- The whole fold of `computeTrackAnalytics` over a progress record. -/
def statsFold (progress : ProgressRecord) : FoldAcc :=
  progress.foldl (fun acc e => statsStep acc e.2) ⟨0, 0, 0, none⟩

/-- The set of distinct activity day keys (`daysSet`,
`src/js/core.js:514-519`): the day key of every truthy `last` timestamp.
Duplicates are harmless since only membership is consulted. -/
def daysSet (progress : ProgressRecord) : List Int :=
  progress.filterMap (fun e =>
    match e.2.last with
    | none => none
    | some t => if t = 0 then none else some (jsDayKey t))

/-- `computeTrackAnalytics(track)` (`src/js/core.js:494-539`): `pList` is
`window.__problemsCache[track.trackKey]` (`none` models the `null` stored
for a failed fetch, keeping `stats.total = 0`); `now` is the current-time
timestamp from which today's day key is derived. -/
def computeTrackAnalytics (pList : Option (List Problem)) (progress : ProgressRecord)
    (now : Int) : TrackStats :=
  let total := match pList with
    | none => 0
    | some l => l.length
  let acc := statsFold progress
  ⟨acc.solved, total, acc.attempts, acc.passes,
   pct acc.passes acc.attempts,
   acc.lastActive,
   calcStreak (daysSet progress) (jsDayKey now)⟩

/-- A track section as consumed by `renderDashboardMulti`
(`src/js/core.js:382-387`), with its problem list already fetched and its
progress record already read from the store. -/
structure TrackSection where
  title : String
  problems : List Problem
  progress : ProgressRecord
deriving Repr

/-- One entry of the unified recent-activity feed
(`src/js/core.js:398-404`): `{when, pid, track, passed, title}`. -/
structure RecentEntry where
  whenTs : Int
  pid : String
  track : String
  passed : Bool
  title : String
deriving DecidableEq, Repr

/-- The unsorted feed accumulated by `renderDashboardMulti`
(`src/js/core.js:395-405`): every progress entry with a truthy `last`, over
all sections, becomes a record; the title falls back to the problem id when
the id is not in the track's problem list. -/
def recentOf (secs : List TrackSection) : List RecentEntry :=
  secs.flatMap (fun s =>
    (s.progress.filter (fun e => lastTruthy e.2)).map (fun e =>
      ⟨e.2.last.getD 0, e.1, s.title, decide (0 < e.2.passes),
       ((s.problems.find? (fun p => p.id == e.1)).map Problem.title).getD e.1⟩))

/-- Descending-by-`when` comparison used by `recent.sort((a, b) => b.when - a.when)`
(`src/js/core.js:446`). -/
def whenDesc (a b : RecentEntry) : Prop := b.whenTs ≤ a.whenTs

instance : DecidableRel whenDesc := fun a b => Int.decLe b.whenTs a.whenTs

instance : IsTotal RecentEntry whenDesc := ⟨fun a b => le_total b.whenTs a.whenTs⟩

instance : IsTrans RecentEntry whenDesc := ⟨fun _ _ _ hab hbc => le_trans hbc hab⟩

/-- The rendered feed (`src/js/core.js:446-455`): sort descending by
`when` (a stable comparison sort, modelled by insertion sort), keep the
first 10 (`recent.slice(0, 10)`). -/
def recentFeed (secs : List TrackSection) : List RecentEntry :=
  (List.insertionSort whenDesc (recentOf secs)).take 10

/-- Per-progress-record totals, as summed by the
`Object.values(progress).forEach` accumulations of `renderDashboardMulti`
(`src/js/core.js:392-393`). -/
def sumAttempts (progress : ProgressRecord) : Nat :=
  (progress.map (fun e => e.2.attempts)).sum

/-- Sum of `passes` over a progress record. -/
def sumPasses (progress : ProgressRecord) : Nat :=
  (progress.map (fun e => e.2.passes)).sum

/-- Number of entries with `passes > 0` over a progress record. -/
def countSolved (progress : ProgressRecord) : Nat :=
  progress.countP (fun e => decide (0 < e.2.passes))

/-- The truthy `last` timestamps of a progress record, in order. -/
def truthyLasts (progress : ProgressRecord) : List Int :=
  progress.filterMap (fun e =>
    match e.2.last with
    | none => none
    | some t => if t = 0 then none else some t)

/-- Whether a stat records activity on day `d`: its `last` is truthy and its
day key is `d` (property-side restatement of the bucket test of
`buildDailySeries`). -/
def statOnDay (s : AttemptStat) (d : Int) : Bool :=
  match s.last with
  | none => false
  | some t => t != 0 && jsDayKey t == d

/-- Property-side combination of a running maximum with further timestamps
(used to state the fold invariant of `computeTrackAnalytics`). -/
def lastCombine (o : Option Int) (l : List Int) : Option Int :=
  match o with
  | none => l.max?
  | some m => some (l.foldl max m)

/-- The overall accumulator of `renderDashboardMulti`
(`src/js/core.js:384`): `{totalProblems, attempts, passes, solved}`. -/
structure Overall where
  totalProblems : Nat
  attempts : Nat
  passes : Nat
  solved : Nat
deriving DecidableEq, Repr

/-- The cross-track overall totals of `renderDashboardMulti`
(`src/js/core.js:382-410` and 429-441).  Each section carries the result of
its `loadJson` fetch; `loadJson` throws on a failed response
(`src/js/core.js:242-246`) and the surrounding `sections.map(async ...)`
has no catch, so `Promise.all` rejects and no overall totals are produced:
that is the `Except.error` case. -/
def renderDashboardMultiOverall
    (secs : List (Except Unit (List Problem) × ProgressRecord)) : Except Unit Overall := do
  let loaded ← secs.mapM (fun sec => do
    let problems ← sec.1
    Except.ok (problems, sec.2))
  Except.ok (loaded.foldl
    (fun ov lp =>
      ⟨ov.totalProblems + lp.1.length,
       ov.attempts + sumAttempts lp.2,
       ov.passes + sumPasses lp.2,
       ov.solved + countSolved lp.2⟩)
    ⟨0, 0, 0, 0⟩)

/-- `preloadProblemsForTracks` (`src/js/core.js:541-554`) per track: a
successful fetch caches the problem list, a failed one caches `null`
(`window.__problemsCache[t.trackKey] = null`), never throwing past its own
boundary. -/
def preloadResult (fetch : Except Unit (List Problem)) : Option (List Problem) :=
  match fetch with
  | Except.ok l => some l
  | Except.error _ => none

/-! ### The attempt submission path (`src/js/js/core.js`) -/

/-- A problem's test case `{input, expected}`. -/
structure TestCase where
  input : String
  expected : String
deriving DecidableEq, Repr

/-- Whitespace as matched by the regex `\s` of `normalize`
(`src/js/js/core.js:31`), restricted to ASCII: space, tab, line feed,
vertical tab, form feed, carriage return. -/
def jsWs (c : Char) : Bool :=
  c.toNat = 32 || c.toNat = 9 || c.toNat = 10 || c.toNat = 11 || c.toNat = 12 || c.toNat = 13

/-- ASCII lower-casing of one character, the model of `toLowerCase()`
restricted to ASCII. -/
def asciiToLower (c : Char) : Char :=
  match c with
  | 'A' => 'a' | 'B' => 'b' | 'C' => 'c' | 'D' => 'd' | 'E' => 'e' | 'F' => 'f'
  | 'G' => 'g' | 'H' => 'h' | 'I' => 'i' | 'J' => 'j' | 'K' => 'k' | 'L' => 'l'
  | 'M' => 'm' | 'N' => 'n' | 'O' => 'o' | 'P' => 'p' | 'Q' => 'q' | 'R' => 'r'
  | 'S' => 's' | 'T' => 't' | 'U' => 'u' | 'V' => 'v' | 'W' => 'w' | 'X' => 'x'
  | 'Y' => 'y' | 'Z' => 'z'
  | c => c

/-- ASCII upper-casing of one character (used only to state properties about
case-insensitivity; not part of the source). -/
def asciiToUpper (c : Char) : Char :=
  match c with
  | 'a' => 'A' | 'b' => 'B' | 'c' => 'C' | 'd' => 'D' | 'e' => 'E' | 'f' => 'F'
  | 'g' => 'G' | 'h' => 'H' | 'i' => 'I' | 'j' => 'J' | 'k' => 'K' | 'l' => 'L'
  | 'm' => 'M' | 'n' => 'N' | 'o' => 'O' | 'p' => 'P' | 'q' => 'Q' | 'r' => 'R'
  | 's' => 'S' | 't' => 'T' | 'u' => 'U' | 'v' => 'V' | 'w' => 'W' | 'x' => 'X'
  | 'y' => 'Y' | 'z' => 'Z'
  | c => c

/-- Drop leading and trailing whitespace: `trim()`. -/
def trimChars (l : List Char) : List Char :=
  ((l.dropWhile jsWs).reverse.dropWhile jsWs).reverse

/-- Replace every maximal whitespace run by a single space:
`replace(/\s+/g, ' ')`. -/
def collapseWs : List Char → List Char
  | [] => []
  | [c] => if jsWs c then [' '] else [c]
  | c₁ :: c₂ :: rest =>
    if jsWs c₁ then
      if jsWs c₂ then collapseWs (c₂ :: rest)
      else ' ' :: collapseWs (c₂ :: rest)
    else c₁ :: collapseWs (c₂ :: rest)

/-- `normalize(s)` (`src/js/js/core.js:30-32`):
`(s || '').trim().replace(/\s+/g, ' ').toLowerCase()`. -/
def normalize (s : String) : String :=
  String.mk ((collapseWs (trimChars s.data)).map asciiToLower)

/-- Map a whole string through `asciiToUpper` (property-side helper). -/
def strUpper (s : String) : String := String.mk (s.data.map asciiToUpper)

/-- The verdict loop of `renderProblem`'s submit handler
(`src/js/js/core.js:57-63`): every test must satisfy
`normalize(answers[i]) === normalize(p.tests[i].expected)`. -/
def passAllTests (answers : List String) (tests : List TestCase) : Bool :=
  (List.range tests.length).all (fun i =>
    normalize (answers.getD i "") == normalize ((tests.getD i ⟨"", ""⟩).expected))

/-- `progress[p.id] || { attempts: 0, passes: 0, last: null }`
(`src/js/js/core.js:70`). -/
def lookupStat (progress : ProgressRecord) (pid : String) : Option AttemptStat :=
  (progress.find? (fun e => e.1 == pid)).map (fun e => e.2)

/-- `progress[p.id] = stat` on a JS object: replace in place when the key
exists, append otherwise. -/
def setEntry : ProgressRecord → String → AttemptStat → ProgressRecord
  | [], pid, st => [(pid, st)]
  | (k, v) :: rest, pid, st =>
    if k = pid then (k, st) :: rest else (k, v) :: setEntry rest pid st

/-- The progress update of the submit handler (`src/js/js/core.js:69-75`):
`stat.attempts += 1; if (passAll) stat.passes += 1; stat.last = Date.now()`. -/
def recordAttempt (progress : ProgressRecord) (pid : String) (allPassed : Bool)
    (now : Int) : ProgressRecord :=
  let stat := (lookupStat progress pid).getD ⟨0, 0, none⟩
  setEntry progress pid
    ⟨stat.attempts + 1, stat.passes + (if allPassed then 1 else 0), some now⟩

/-! ### Lemmas about the daily activity series -/

lemma jsDayKey_sub_mul (t k : Int) : jsDayKey (t - k * 86400000) = jsDayKey t - k := by
  unfold jsDayKey
  rw [Int.fdiv_eq_ediv _ (by norm_num), Int.fdiv_eq_ediv _ (by norm_num), sub_eq_add_neg,
    ← neg_mul, Int.add_mul_ediv_right _ _ (by norm_num)]
  omega

lemma windowLabels_length (now : Int) (days : Nat) :
    (windowLabels now days).length = days := by
  simp [windowLabels]

lemma windowLabels_getElem (now : Int) (days j : Nat)
    (h : j < (windowLabels now days).length) :
    (windowLabels now days)[j] = jsDayKey now - ((days : Int) - 1 - (j : Int)) := by
  simp [windowLabels, jsDayKey_sub_mul]

lemma mem_windowLabels {now : Int} {days : Nat} {d : Int} :
    d ∈ windowLabels now days ↔ jsDayKey now - days < d ∧ d ≤ jsDayKey now := by
  simp only [windowLabels, List.mem_map, List.mem_range, jsDayKey_sub_mul]
  constructor
  · rintro ⟨j, hj, rfl⟩
    omega
  · intro h
    refine ⟨days - 1 - (jsDayKey now - d).toNat, by omega, by omega⟩

lemma windowLabels_chain' (now : Int) (days : Nat) :
    (windowLabels now days).Chain' (· < ·) := by
  rw [List.chain'_iff_get]
  intro i h
  simp only [List.get_eq_getElem]
  rw [windowLabels_getElem, windowLabels_getElem]
  have : i < days := by
    have := windowLabels_length now days
    omega
  omega

lemma windowLabels_nodup (now : Int) (days : Nat) :
    (windowLabels now days).Nodup :=
  ((List.chain'_iff_pairwise).mp (windowLabels_chain' now days)).imp ne_of_lt

lemma addStatToCounts_apply (labels : List Int) (c : Int → Nat) (s : AttemptStat) (d : Int) :
    addStatToCounts labels c s d =
      c d + (if statOnDay s d = true ∧ d ∈ labels then statContribution s else 0) := by
  cases h : s.last with
  | none => simp [addStatToCounts, statOnDay, h]
  | some t =>
    by_cases h0 : t = 0
    · simp [addStatToCounts, statOnDay, h, h0]
    · by_cases hd : d = jsDayKey t
      · subst hd
        by_cases hm : jsDayKey t ∈ labels <;>
          simp [addStatToCounts, statOnDay, h, h0, hm]
      · have hd' : ¬jsDayKey t = d := fun hh => hd hh.symm
        by_cases hm : jsDayKey t ∈ labels <;>
          simp [addStatToCounts, statOnDay, h, h0, hm, hd, hd']

lemma foldl_addStat_apply (labels : List Int) (r : ProgressRecord) :
    ∀ (c : Int → Nat) (d : Int),
      (r.foldl (fun c e => addStatToCounts labels c e.2) c) d =
        c d + ((r.map (fun e =>
          if statOnDay e.2 d = true ∧ d ∈ labels then statContribution e.2 else 0)).sum) := by
  induction r with
  | nil => intro c d; simp
  | cons e rest ih =>
    intro c d
    simp only [List.foldl_cons, List.map_cons, List.sum_cons]
    rw [ih, addStatToCounts_apply]
    omega

lemma countsOf_apply (labels : List Int) (recs : List ProgressRecord) (d : Int) :
    countsOf labels recs d =
      (((recs.flatMap id).map (fun e =>
        if statOnDay e.2 d = true ∧ d ∈ labels then statContribution e.2 else 0)).sum) := by
  unfold countsOf
  have main : ∀ (c : Int → Nat),
      (recs.foldl (fun c rec1 => rec1.foldl (fun c e => addStatToCounts labels c e.2) c) c) d =
        c d + (((recs.flatMap id).map (fun e =>
          if statOnDay e.2 d = true ∧ d ∈ labels then statContribution e.2 else 0)).sum) := by
    induction recs with
    | nil => intro c; simp
    | cons r rest ih =>
      intro c
      simp only [List.foldl_cons, List.flatMap_cons, id_eq, List.map_append, List.sum_append]
      rw [ih, foldl_addStat_apply]
      omega
  rw [main]
  simp

lemma countsOf_eq_zero {labels : List Int} {recs : List ProgressRecord} {d : Int}
    (hno : ∀ r ∈ recs, ∀ e ∈ r, statOnDay e.2 d = false) :
    countsOf labels recs d = 0 := by
  rw [countsOf_apply]
  apply List.sum_eq_zero
  intro x hx
  simp only [List.mem_map] at hx
  obtain ⟨e, he, rfl⟩ := hx
  simp only [List.mem_flatMap, id_eq] at he
  obtain ⟨r, hr, her⟩ := he
  simp [hno r hr e her]

lemma sum_indicator_count (l : List Int) (dk : Int) (c : Nat) :
    (l.map (fun d => if d = dk then c else 0)).sum = c * l.count dk := by
  induction l with
  | nil => simp
  | cons a l ih =>
    simp only [List.map_cons, List.sum_cons, List.count_cons, ih]
    by_cases h : a = dk
    · simp only [h, if_true, beq_self_eq_true]
      ring
    · simp [h]

lemma buildDailySeries_single_sum (pid : String) (s : AttemptStat) (t now : Int) (days : Nat)
    (h : s.last = some t) (h0 : t ≠ 0) :
    ((buildDailySeries [[(pid, s)]] now days).2).sum =
      if jsDayKey t ∈ windowLabels now days then statContribution s else 0 := by
  simp only [buildDailySeries]
  by_cases hm : jsDayKey t ∈ windowLabels now days
  · rw [if_pos hm]
    have hcong : ∀ d ∈ windowLabels now days,
        countsOf (windowLabels now days) [[(pid, s)]] d =
          (fun d => if d = jsDayKey t then statContribution s else 0) d := by
      intro d hd
      rw [countsOf_apply]
      by_cases hdk : d = jsDayKey t
      · subst hdk
        simp [statOnDay, h, h0, hd]
      · have hdk' : ¬jsDayKey t = d := fun hh => hdk hh.symm
        simp [statOnDay, h, h0, hd, hdk, hdk']
    rw [List.map_congr_left hcong, sum_indicator_count,
      List.count_eq_one_of_mem (windowLabels_nodup now days) hm, mul_one]
  · rw [if_neg hm]
    apply List.sum_eq_zero
    intro x hx
    simp only [List.mem_map] at hx
    obtain ⟨d, hd, rfl⟩ := hx
    have hne : ¬jsDayKey t = d := fun hh => hm (hh ▸ hd)
    rw [countsOf_apply]
    simp [statOnDay, h, h0, hne]

/-! ### Lemmas about the streak calculator -/

lemma calcStreakLoop_le (s : List Int) (D : Int) :
    ∀ (fuel offset streak : Nat), calcStreakLoop s D fuel offset streak ≤ streak + fuel := by
  intro fuel
  induction fuel with
  | zero => intro offset streak; simp [calcStreakLoop]
  | succ n ih =>
    intro offset streak
    simp only [calcStreakLoop]
    split
    · exact le_trans (ih (offset + 1) (streak + 1)) (by omega)
    · split
      · exact le_trans (ih (offset + 1) streak) (by omega)
      · omega

lemma calcStreakLoop_mem {s : List Int} {D : Int} {fuel offset streak : Nat}
    (h : (D - (offset : Int)) ∈ s) :
    calcStreakLoop s D (fuel + 1) offset streak =
      calcStreakLoop s D fuel (offset + 1) (streak + 1) := by
  simp [calcStreakLoop, h]

lemma calcStreakLoop_grace {s : List Int} {D : Int} {fuel streak : Nat}
    (h : D ∉ s) :
    calcStreakLoop s D (fuel + 1) 0 streak = calcStreakLoop s D fuel 1 streak := by
  simp [calcStreakLoop, h]

lemma calcStreakLoop_stop {s : List Int} {D : Int} {fuel offset streak : Nat}
    (h : (D - (offset : Int)) ∉ s) (h0 : offset ≠ 0) :
    calcStreakLoop s D (fuel + 1) offset streak = streak := by
  simp [calcStreakLoop, h, h0]

/-- C2: the streak calculator walks backward from today's day key `D` up to
a hard cap of 365 days counting consecutive present days; a missing day at
offset 0 does not terminate the walk (grace for today) while the first
missing day at offset ≥ 1 does.  In particular: activity on exactly
`{today-1, today-2, today-3}` gives streak 3, activity on exactly
`{today, today-1}` gives streak 2, and no activity gives streak 0. -/
theorem calcStreak_cap_and_examples (D : Int) (s : List Int) :
    calcStreak s D ≤ 365 ∧
    calcStreak [D - 1, D - 2, D - 3] D = 3 ∧
    calcStreak [D, D - 1] D = 2 ∧
    calcStreak ([] : List Int) D = 0 := by
  refine ⟨calcStreakLoop_le s D 365 0 0, ?_, ?_, ?_⟩
  · have h0 : D ∉ [D - 1, D - 2, D - 3] := by simp; omega
    have m1 : (D - ((1 : Nat) : Int)) ∈ [D - 1, D - 2, D - 3] := by push_cast; simp
    have m2 : (D - ((2 : Nat) : Int)) ∈ [D - 1, D - 2, D - 3] := by push_cast; simp
    have m3 : (D - ((3 : Nat) : Int)) ∈ [D - 1, D - 2, D - 3] := by push_cast; simp
    have n4 : (D - ((4 : Nat) : Int)) ∉ [D - 1, D - 2, D - 3] := by push_cast; simp
    rw [calcStreak, calcStreakLoop_grace h0, calcStreakLoop_mem m1, calcStreakLoop_mem m2,
      calcStreakLoop_mem m3, calcStreakLoop_stop n4 (by norm_num)]
  · have m0 : (D - ((0 : Nat) : Int)) ∈ [D, D - 1] := by push_cast; simp
    have m1 : (D - ((1 : Nat) : Int)) ∈ [D, D - 1] := by push_cast; simp
    have n2 : (D - ((2 : Nat) : Int)) ∉ [D, D - 1] := by push_cast; simp
    rw [calcStreak, calcStreakLoop_mem m0, calcStreakLoop_mem m1,
      calcStreakLoop_stop n2 (by norm_num)]
  · have h0 : D ∉ ([] : List Int) := by simp
    have n1 : (D - ((1 : Nat) : Int)) ∉ ([] : List Int) := by simp
    rw [calcStreak, calcStreakLoop_grace h0, calcStreakLoop_stop n1 (by norm_num)]

/-! ### Lemmas about the per-track stat fold -/

lemma ite_lt_max (m t : Int) : (if m < t then t else m) = max m t := by
  by_cases h : m < t
  · simp [h, max_eq_right (le_of_lt h)]
  · simp [h, max_eq_left (not_lt.mp h)]

lemma ite_lt_max_some (m t : Int) : (if m < t then some t else some m) = some (max m t) := by
  rw [← apply_ite some, ite_lt_max]

lemma statsFold_go (progress : ProgressRecord) :
    ∀ acc : FoldAcc,
      progress.foldl (fun acc e => statsStep acc e.2) acc =
        FoldAcc.mk (acc.attempts + sumAttempts progress) (acc.passes + sumPasses progress)
          (acc.solved + countSolved progress)
          (lastCombine acc.lastActive (truthyLasts progress)) := by
  induction progress with
  | nil =>
    intro acc
    cases acc with
    | mk a p sv la =>
      cases la <;> simp [sumAttempts, sumPasses, countSolved, truthyLasts, lastCombine, List.max?]
  | cons e rest ih =>
    intro acc
    simp only [List.foldl_cons]
    rw [ih]
    simp only [sumAttempts, sumPasses, countSolved, truthyLasts, List.map_cons, List.sum_cons,
      List.countP_cons, List.filterMap_cons, FoldAcc.mk.injEq]
    refine ⟨?_, ?_, ?_, ?_⟩
    · simp only [statsStep, sumAttempts]
      omega
    · simp only [statsStep, sumPasses]
      omega
    · simp only [statsStep, countSolved]
      by_cases hp : 0 < e.2.passes
      · simp [hp]
        omega
      · simp [hp]
    · cases hl : e.2.last with
      | none => simp [statsStep, hl]
      | some t =>
        by_cases h0 : t = 0
        · simp [statsStep, hl, h0]
        · simp only [statsStep, hl, h0, if_false]
          cases hla : acc.lastActive with
          | none => simp [lastCombine, List.max?]
          | some m =>
            dsimp only
            rw [ite_lt_max_some]
            simp [lastCombine, List.foldl_cons]

lemma statsFold_eq (progress : ProgressRecord) :
    statsFold progress =
      FoldAcc.mk (sumAttempts progress) (sumPasses progress) (countSolved progress)
        ((truthyLasts progress).max?) := by
  unfold statsFold
  rw [statsFold_go]
  simp [lastCombine]

/-! ### Claim C1 -/

/-- C1: for every collection of progress records (empty, sparse, or with
timestamps outside the window) and every window size, `buildDailySeries`
returns exactly `days` labels and exactly `days` counts, the labels in
strictly increasing (chronological) order, and every day with no in-window
activity holds count `0`. -/
theorem buildDailySeries_exact_window (recs : List ProgressRecord) (now : Int) (days : Nat)
    (i : Nat) (hi : i < days)
    (hno : ∀ r ∈ recs, ∀ e ∈ r,
      statOnDay e.2 ((buildDailySeries recs now days).1.getD i 0) = false) :
    (buildDailySeries recs now days).1.length = days ∧
    (buildDailySeries recs now days).2.length = days ∧
    (buildDailySeries recs now days).1.Chain' (· < ·) ∧
    (buildDailySeries recs now days).2.getD i 0 = 0 := by
  refine ⟨windowLabels_length now days, ?_, windowLabels_chain' now days, ?_⟩
  · simp [buildDailySeries, windowLabels_length]
  · have hlen : i < (windowLabels now days).length := by
      rw [windowLabels_length]; exact hi
    have hmaplen :
        i < ((windowLabels now days).map (countsOf (windowLabels now days) recs)).length := by
      simpa using hlen
    simp only [buildDailySeries] at hno ⊢
    rw [List.getD_eq_getElem _ _ hmaplen, List.getElem_map]
    rw [List.getD_eq_getElem _ _ hlen] at hno
    exact countsOf_eq_zero hno

/-- Witness for C1 at a concrete input: one record whose single attempt lies
outside the window, one empty record, today on day 100, window 14, bucket 0. -/
theorem buildDailySeries_exact_window_witness :
    (0 : Nat) < 14 ∧
    (∀ r ∈ [[("p1", AttemptStat.mk 2 1 (some (50 * 86400000 + 3)))], []],
      ∀ e ∈ r, statOnDay e.2
        ((buildDailySeries [[("p1", AttemptStat.mk 2 1 (some (50 * 86400000 + 3)))], []]
          (100 * 86400000 + 5000) 14).1.getD 0 0) = false) ∧
    ((buildDailySeries [[("p1", AttemptStat.mk 2 1 (some (50 * 86400000 + 3)))], []]
        (100 * 86400000 + 5000) 14).1.length = 14 ∧
      (buildDailySeries [[("p1", AttemptStat.mk 2 1 (some (50 * 86400000 + 3)))], []]
        (100 * 86400000 + 5000) 14).2.length = 14 ∧
      (buildDailySeries [[("p1", AttemptStat.mk 2 1 (some (50 * 86400000 + 3)))], []]
        (100 * 86400000 + 5000) 14).1.Chain' (· < ·) ∧
      (buildDailySeries [[("p1", AttemptStat.mk 2 1 (some (50 * 86400000 + 3)))], []]
        (100 * 86400000 + 5000) 14).2.getD 0 0 = 0) :=
  ⟨by decide, by decide,
    buildDailySeries_exact_window
      [[("p1", AttemptStat.mk 2 1 (some (50 * 86400000 + 3)))], []]
      (100 * 86400000 + 5000) 14 0 (by decide) (by decide)⟩

/-! ### Claim C4 -/

/-- C4 counterexample: with today on day 100, an attempt whose `last` falls
on the calendar day exactly 14 days before today (day 86) is NOT inside the
14-day window: the series stays all-zero, so the attempt contributes 0
rather than its `attempts` count (2). -/
theorem dailySeries_day14_outside :
    jsDayKey (86 * 86400000 + 7) = jsDayKey (100 * 86400000 + 5000) - 14 ∧
    (buildDailySeries [[("p1", AttemptStat.mk 2 1 (some (86 * 86400000 + 7)))]]
        (100 * 86400000 + 5000) 14).2 = List.replicate 14 0 := by
  decide

/-- C4 (amended): the 14-day window ends at and includes today, so its
inclusive far boundary is the day exactly 13 days before today: an attempt
on that day contributes its `attempts || 1` count, while one on the day
exactly 14 days before today is outside the window and contributes 0
(dropped, not clipped). -/
theorem dailySeries_window_boundary (now t : Int) (a p : Nat) (h0 : t ≠ 0) :
    (jsDayKey t = jsDayKey now - 13 →
      ((buildDailySeries [[("p1", AttemptStat.mk a p (some t))]] now 14).2).sum =
        statContribution (AttemptStat.mk a p (some t))) ∧
    (jsDayKey t = jsDayKey now - 14 →
      ((buildDailySeries [[("p1", AttemptStat.mk a p (some t))]] now 14).2).sum = 0) := by
  constructor
  · intro h13
    rw [buildDailySeries_single_sum _ _ t now 14 rfl h0, if_pos]
    rw [mem_windowLabels]
    push_cast
    omega
  · intro h14
    rw [buildDailySeries_single_sum _ _ t now 14 rfl h0, if_neg]
    rw [mem_windowLabels]
    push_cast
    omega

/-- Witness for C4 (amended) at a concrete input: today on day 100, one
attempt on day 87 (13 days before) counted in full, one on day 86 (14 days
before) dropped. -/
theorem dailySeries_window_boundary_witness :
    ((87 * 86400000 + 11 : Int) ≠ 0 ∧
      jsDayKey (87 * 86400000 + 11) = jsDayKey (100 * 86400000 + 5000) - 13 ∧
      ((buildDailySeries [[("p1", AttemptStat.mk 2 1 (some (87 * 86400000 + 11)))]]
          (100 * 86400000 + 5000) 14).2).sum =
        statContribution (AttemptStat.mk 2 1 (some (87 * 86400000 + 11)))) ∧
    ((86 * 86400000 + 7 : Int) ≠ 0 ∧
      jsDayKey (86 * 86400000 + 7) = jsDayKey (100 * 86400000 + 5000) - 14 ∧
      ((buildDailySeries [[("p1", AttemptStat.mk 2 1 (some (86 * 86400000 + 7)))]]
          (100 * 86400000 + 5000) 14).2).sum = 0) :=
  ⟨⟨by decide, by decide,
    (dailySeries_window_boundary (100 * 86400000 + 5000) (87 * 86400000 + 11) 2 1
      (by decide)).1 (by decide)⟩,
   ⟨by decide, by decide,
    (dailySeries_window_boundary (100 * 86400000 + 5000) (86 * 86400000 + 7) 2 1
      (by decide)).2 (by decide)⟩⟩

/-! ### Claim C8 -/

/-- C8 counterexample: the day bucket is not determined by local time.  At
timestamp 1000 (just after the UTC midnight of day 0), on a host whose
local clock runs one hour behind UTC, the local calendar day is day `-1`,
yet the code's `toISOString`-based key is day `0`, and `buildDailySeries`
counts the attempt in the bucket of UTC day 0 (here the sole window
label). -/
theorem dayKey_not_local :
    localDayKey 1000 (-3600000) = -1 ∧
    jsDayKey 1000 = 0 ∧
    jsDayKey 1000 ≠ localDayKey 1000 (-3600000) ∧
    (buildDailySeries [[("p1", AttemptStat.mk 2 1 (some 1000))]] 1000 1).2 = [2] := by
  decide

/-- C8 (amended): for every attempt with a truthy `last` timestamp, the
daily-series builder buckets it by its UTC calendar-day key `jsDayKey`
(the `toISOString().slice(0, 10)` date), independent of any host time-zone
offset; the UTC key agrees with the local-time key only for offset 0. -/
theorem dailySeries_buckets_by_utc_day (now t : Int) (a p : Nat) (pid : String)
    (h0 : t ≠ 0) :
    ((buildDailySeries [[(pid, AttemptStat.mk a p (some t))]] now 14).2).sum =
      (if jsDayKey t ∈ windowLabels now 14
        then statContribution (AttemptStat.mk a p (some t)) else 0) ∧
    localDayKey t 0 = jsDayKey t := by
  refine ⟨buildDailySeries_single_sum pid _ t now 14 rfl h0, ?_⟩
  simp [localDayKey, jsDayKey]

/-- Witness for C8 (amended) at a concrete input: today on day 100, an
attempt on day 95 is counted through its UTC day key. -/
theorem dailySeries_buckets_by_utc_day_witness :
    ((95 * 86400000 + 321 : Int) ≠ 0) ∧
    (((buildDailySeries [[("p9", AttemptStat.mk 3 2 (some (95 * 86400000 + 321)))]]
        (100 * 86400000 + 5000) 14).2).sum =
      (if jsDayKey (95 * 86400000 + 321) ∈ windowLabels (100 * 86400000 + 5000) 14
        then statContribution (AttemptStat.mk 3 2 (some (95 * 86400000 + 321))) else 0) ∧
      localDayKey (95 * 86400000 + 321) 0 = jsDayKey (95 * 86400000 + 321)) :=
  ⟨by decide,
    dailySeries_buckets_by_utc_day (100 * 86400000 + 5000) (95 * 86400000 + 321) 3 2 "p9"
      (by decide)⟩

/-! ### Claim C3 -/

/-- C3: the per-problem stat folder returns `total` = problem count,
`solved` = number of entries with `passes > 0`, `attempts`/`passes` = sums
over all entries, `accuracy` = the rounded percentage with `0` on zero
attempts, and `lastActive` = the maximum truthy `last` timestamp (absent if
none).  The final conjuncts check the spec's concrete example (5 problems,
`{p1: {attempts: 3, passes: 1, last: 1000}, p2: {attempts: 2, passes: 2,
last: 2000}}` gives solved 2, total 5, attempts 5, passes 3, accuracy 60)
and the zero-attempts accuracy. -/
theorem computeTrackAnalytics_folds (pList : List Problem) (progress : ProgressRecord)
    (now : Int) :
    (computeTrackAnalytics (some pList) progress now).total = pList.length ∧
    (computeTrackAnalytics (some pList) progress now).solved = countSolved progress ∧
    (computeTrackAnalytics (some pList) progress now).attempts = sumAttempts progress ∧
    (computeTrackAnalytics (some pList) progress now).passes = sumPasses progress ∧
    (computeTrackAnalytics (some pList) progress now).accuracy =
      pct (sumPasses progress) (sumAttempts progress) ∧
    (computeTrackAnalytics (some pList) progress now).lastActive =
      (truthyLasts progress).max? ∧
    (computeTrackAnalytics
        (some [Problem.mk "p1" "P1", Problem.mk "p2" "P2", Problem.mk "p3" "P3",
          Problem.mk "p4" "P4", Problem.mk "p5" "P5"])
        [("p1", AttemptStat.mk 3 1 (some 1000)), ("p2", AttemptStat.mk 2 2 (some 2000))]
        0).solved = 2 ∧
    (computeTrackAnalytics
        (some [Problem.mk "p1" "P1", Problem.mk "p2" "P2", Problem.mk "p3" "P3",
          Problem.mk "p4" "P4", Problem.mk "p5" "P5"])
        [("p1", AttemptStat.mk 3 1 (some 1000)), ("p2", AttemptStat.mk 2 2 (some 2000))]
        0).total = 5 ∧
    (computeTrackAnalytics
        (some [Problem.mk "p1" "P1", Problem.mk "p2" "P2", Problem.mk "p3" "P3",
          Problem.mk "p4" "P4", Problem.mk "p5" "P5"])
        [("p1", AttemptStat.mk 3 1 (some 1000)), ("p2", AttemptStat.mk 2 2 (some 2000))]
        0).attempts = 5 ∧
    (computeTrackAnalytics
        (some [Problem.mk "p1" "P1", Problem.mk "p2" "P2", Problem.mk "p3" "P3",
          Problem.mk "p4" "P4", Problem.mk "p5" "P5"])
        [("p1", AttemptStat.mk 3 1 (some 1000)), ("p2", AttemptStat.mk 2 2 (some 2000))]
        0).passes = 3 ∧
    (computeTrackAnalytics
        (some [Problem.mk "p1" "P1", Problem.mk "p2" "P2", Problem.mk "p3" "P3",
          Problem.mk "p4" "P4", Problem.mk "p5" "P5"])
        [("p1", AttemptStat.mk 3 1 (some 1000)), ("p2", AttemptStat.mk 2 2 (some 2000))]
        0).accuracy = 60 ∧
    (computeTrackAnalytics
        (some [Problem.mk "p1" "P1", Problem.mk "p2" "P2", Problem.mk "p3" "P3",
          Problem.mk "p4" "P4", Problem.mk "p5" "P5"])
        [("p1", AttemptStat.mk 3 1 (some 1000)), ("p2", AttemptStat.mk 2 2 (some 2000))]
        0).lastActive = some 2000 ∧
    (computeTrackAnalytics (some []) [] 0).accuracy = 0 ∧
    (computeTrackAnalytics (some []) [] 0).lastActive = none := by
  refine ⟨rfl, ?_, ?_, ?_, ?_, ?_, by decide, by decide, by decide, by decide, by decide,
    by decide, by decide, by decide⟩ <;>
    simp [computeTrackAnalytics, statsFold_eq, pct]

/-! ### Claim C6 -/

/-- C6 counterexample: in `renderDashboardMulti` a failed problem-list fetch
for one track rejects the whole batch (`loadJson` throws and nothing
catches it before `Promise.all`), so no overall totals are produced at all —
the failing track's attempts/passes/solved do not sum into anything.  With
the same records and both fetches succeeding, the totals do appear. -/
theorem renderDashboardMulti_aborts_on_failed_fetch :
    renderDashboardMultiOverall
        [(Except.ok [Problem.mk "a" "A"], [("a", AttemptStat.mk 2 1 (some 5))]),
         (Except.error (), [("b", AttemptStat.mk 3 2 (some 6))])] = Except.error () ∧
    renderDashboardMultiOverall
        [(Except.ok [Problem.mk "a" "A"], [("a", AttemptStat.mk 2 1 (some 5))]),
         (Except.ok [], [("b", AttemptStat.mk 3 2 (some 6))])] =
      Except.ok (Overall.mk 1 5 3 2) := by
  constructor <;> rfl

/-- C6 (amended): the fetch-failure tolerance lives in the analytics path:
`preloadProblemsForTracks` caches `null` for a failed track and
`computeTrackAnalytics` then degrades that track's `total` to 0 while its
`attempts`, `passes` and `solved` are still computed from its progress
record; a successfully loaded track is unaffected.  (In
`renderDashboardMulti` itself, a failed fetch rejects the whole batch.) -/
theorem failedFetch_degrades_total (progA progB : ProgressRecord)
    (probsB : List Problem) (now : Int) :
    (computeTrackAnalytics (preloadResult (Except.error ())) progA now).total = 0 ∧
    (computeTrackAnalytics (preloadResult (Except.error ())) progA now).attempts =
      sumAttempts progA ∧
    (computeTrackAnalytics (preloadResult (Except.error ())) progA now).passes =
      sumPasses progA ∧
    (computeTrackAnalytics (preloadResult (Except.error ())) progA now).solved =
      countSolved progA ∧
    (computeTrackAnalytics (preloadResult (Except.ok probsB)) progB now).total =
      probsB.length ∧
    (computeTrackAnalytics (preloadResult (Except.ok probsB)) progB now).attempts =
      sumAttempts progB ∧
    (computeTrackAnalytics (preloadResult (Except.ok probsB)) progB now).passes =
      sumPasses progB ∧
    (computeTrackAnalytics (preloadResult (Except.ok probsB)) progB now).solved =
      countSolved progB := by
  refine ⟨rfl, ?_, ?_, ?_, rfl, ?_, ?_, ?_⟩ <;>
    simp [computeTrackAnalytics, preloadResult, statsFold_eq]

/-! ### Claim C7 -/

/-- C7 counterexample: the accuracy is not always in `[0, 100]`.  For the
progress record `{p: {attempts: 1, passes: 2}}` (the unenforced invariant
`passes ≤ attempts` violated), the computed accuracy is
`round(100 * 2 / 1) = 200 > 100`. -/
theorem accuracy_can_exceed_100 :
    (computeTrackAnalytics none [("p", AttemptStat.mk 1 2 none)] 0).accuracy = 200 ∧
    ¬(computeTrackAnalytics none [("p", AttemptStat.mk 1 2 none)] 0).accuracy ≤ 100 := by
  decide

/-- C7 (amended): for every progress record in which every entry satisfies
`passes ≤ attempts`, the computed accuracy is an integer in `[0, 100]`
(it is a `Nat`, so only the upper bound is substantive); without that
invariant it can exceed 100. -/
theorem accuracy_le_100_of_inv (pList : Option (List Problem)) (progress : ProgressRecord)
    (now : Int) (hinv : ∀ e ∈ progress, e.2.passes ≤ e.2.attempts) :
    (computeTrackAnalytics pList progress now).accuracy ≤ 100 := by
  have hle : sumPasses progress ≤ sumAttempts progress := by
    unfold sumPasses sumAttempts
    exact List.sum_le_sum hinv
  have hacc : (computeTrackAnalytics pList progress now).accuracy =
      pct (sumPasses progress) (sumAttempts progress) := by
    simp [computeTrackAnalytics, statsFold_eq]
  rw [hacc]
  unfold pct
  split
  · omega
  · rename_i h
    calc (200 * sumPasses progress + sumAttempts progress) / (2 * sumAttempts progress)
        ≤ (201 * sumAttempts progress) / (2 * sumAttempts progress) :=
          Nat.div_le_div_right (by omega)
      _ = 100 := Nat.div_eq_of_lt_le (by omega) (by omega)

/-- Witness for C7 (amended) at a concrete input: `{p: {attempts: 3,
passes: 1}}` satisfies the invariant and yields accuracy `33 ≤ 100`. -/
theorem accuracy_le_100_of_inv_witness :
    (∀ e ∈ [("p", AttemptStat.mk 3 1 none)], e.2.passes ≤ e.2.attempts) ∧
    (computeTrackAnalytics none [("p", AttemptStat.mk 3 1 none)] 0).accuracy ≤ 100 :=
  ⟨by decide, accuracy_le_100_of_inv none [("p", AttemptStat.mk 3 1 none)] 0 (by decide)⟩

/-! ### Claim C5 -/

/-- C5: the unified recent-activity feed flattens every dated progress
entry across all tracks, sorts descending by `when`, and truncates to the
10 most recent: whenever at least 15 dated entries exist, the output has
exactly 10 entries and their `when` values are non-increasing. -/
theorem recentFeed_ten_sorted (secs : List TrackSection)
    (h : 15 ≤ (recentOf secs).length) :
    (recentFeed secs).length = 10 ∧
    (recentFeed secs).Pairwise (fun a b => b.whenTs ≤ a.whenTs) := by
  constructor
  · unfold recentFeed
    rw [List.length_take, List.length_insertionSort]
    omega
  · unfold recentFeed
    exact List.Pairwise.sublist (List.take_sublist 10 _)
      (List.sorted_insertionSort whenDesc (recentOf secs))

/-- Witness for C5 at a concrete input: a single track whose progress record
holds 15 dated entries. -/
theorem recentFeed_ten_sorted_witness :
    15 ≤ (recentOf [TrackSection.mk "T" [Problem.mk "q1" "Alpha"]
      ((List.range 15).map (fun i => (toString i, AttemptStat.mk 1 (i % 2) (some ((i : Int) + 1)))))]).length ∧
    ((recentFeed [TrackSection.mk "T" [Problem.mk "q1" "Alpha"]
        ((List.range 15).map (fun i => (toString i, AttemptStat.mk 1 (i % 2) (some ((i : Int) + 1)))))]).length = 10 ∧
      (recentFeed [TrackSection.mk "T" [Problem.mk "q1" "Alpha"]
        ((List.range 15).map (fun i => (toString i, AttemptStat.mk 1 (i % 2) (some ((i : Int) + 1)))))]).Pairwise
        (fun a b => b.whenTs ≤ a.whenTs)) :=
  ⟨by decide,
    recentFeed_ten_sorted [TrackSection.mk "T" [Problem.mk "q1" "Alpha"]
      ((List.range 15).map (fun i => (toString i, AttemptStat.mk 1 (i % 2) (some ((i : Int) + 1)))))]
      (by decide)⟩

/-! ### Lemmas about answer normalization -/

lemma jsWs_asciiToUpper (c : Char) : jsWs (asciiToUpper c) = jsWs c := by
  unfold asciiToUpper
  split <;> rfl

lemma asciiToLower_asciiToUpper (c : Char) : asciiToLower (asciiToUpper c) = asciiToLower c := by
  unfold asciiToUpper
  split <;> rfl

lemma trimChars_map_upper (l : List Char) :
    trimChars (l.map asciiToUpper) = (trimChars l).map asciiToUpper := by
  have hws : jsWs ∘ asciiToUpper = jsWs := funext jsWs_asciiToUpper
  unfold trimChars
  rw [List.dropWhile_map, hws, ← List.map_reverse, List.dropWhile_map, hws, ← List.map_reverse]

lemma asciiToUpper_space : asciiToUpper ' ' = ' ' := rfl

lemma collapseWs_map_upper (l : List Char) :
    collapseWs (l.map asciiToUpper) = (collapseWs l).map asciiToUpper := by
  induction l using collapseWs.induct with
  | case1 => rfl
  | case2 c h =>
    simp [collapseWs, jsWs_asciiToUpper, h, asciiToUpper_space]
  | case3 c h =>
    simp [collapseWs, jsWs_asciiToUpper, h]
  | case4 c₁ c₂ rest h1 h2 ih =>
    simp only [List.map_cons] at ih ⊢
    simp [collapseWs, jsWs_asciiToUpper, h1, h2, ih]
  | case5 c₁ c₂ rest h1 h2 ih =>
    simp only [List.map_cons] at ih ⊢
    simp [collapseWs, jsWs_asciiToUpper, h1, h2, ih, asciiToUpper_space]
  | case6 c₁ c₂ rest h1 ih =>
    simp only [List.map_cons] at ih ⊢
    simp [collapseWs, jsWs_asciiToUpper, h1, ih]

lemma normalize_strUpper (s : String) : normalize (strUpper s) = normalize s := by
  unfold normalize strUpper
  have hdata : (String.mk (s.data.map asciiToUpper)).data = s.data.map asciiToUpper := rfl
  have hcomp : asciiToLower ∘ asciiToUpper = asciiToLower := funext asciiToLower_asciiToUpper
  rw [hdata, trimChars_map_upper, collapseWs_map_upper, List.map_map, hcomp]

/-! ### Claim C9 -/

/-- C9 counterexample: passing a test is not decided by literal string
equality: with expected text `"abc"`, the submitted answers `"ABC"` and
`"abc"` — which differ only in letter case, and of which only one can equal
the expected text literally — both pass, because `normalize` lower-cases
(and whitespace-collapses) both sides before comparing. -/
theorem verdict_not_literal_equality :
    passAllTests ["ABC"] [TestCase.mk "x" "abc"] = true ∧
    passAllTests ["abc"] [TestCase.mk "x" "abc"] = true ∧
    ("ABC" : String) ≠ "abc" ∧
    passAllTests ["  a   b "] [TestCase.mk "x" "a b"] = true := by
  decide

/-- C9 (amended): passing a test is decided by string equality of the
normalized (trimmed, whitespace-collapsed, lower-cased) answer and expected
text — in particular the verdict is case-insensitive: upper-casing every
submitted answer never changes it. -/
theorem verdict_case_insensitive (answers : List String) (tests : List TestCase) :
    passAllTests (answers.map strUpper) tests = passAllTests answers tests := by
  have hpt : ∀ i : Nat,
      normalize ((answers.map strUpper).getD i "") = normalize (answers.getD i "") := by
    intro i
    rcases lt_or_ge i answers.length with h | h
    · rw [List.getD_eq_getElem _ _ (by simpa using h), List.getD_eq_getElem _ _ h,
        List.getElem_map]
      exact normalize_strUpper _
    · rw [List.getD_eq_default _ _ (by simpa using h), List.getD_eq_default _ _ h]
  unfold passAllTests
  congr 1
  funext i
  rw [hpt i]

/-! ### Lemmas about attempt recording -/

lemma lookupStat_setEntry (progress : ProgressRecord) (pid : String) (st : AttemptStat) :
    lookupStat (setEntry progress pid st) pid = some st := by
  induction progress with
  | nil => simp [setEntry, lookupStat]
  | cons e rest ih =>
    by_cases h : e.1 = pid
    · simp [setEntry, lookupStat, h]
    · simp only [setEntry, h, if_false]
      unfold lookupStat at ih ⊢
      rw [List.find?_cons_of_neg _ (by simp [h])]
      exact ih

lemma mem_setEntry {progress : ProgressRecord} {pid : String} {st : AttemptStat}
    {x : String × AttemptStat} (hx : x ∈ setEntry progress pid st) :
    x.2 = st ∨ x ∈ progress := by
  induction progress with
  | nil =>
    simp only [setEntry, List.mem_singleton] at hx
    exact Or.inl (by rw [hx])
  | cons e rest ih =>
    by_cases h : e.1 = pid
    · simp only [setEntry, h, if_true, List.mem_cons] at hx
      rcases hx with hx | hx
      · exact Or.inl (by rw [hx])
      · exact Or.inr (List.mem_cons_of_mem e hx)
    · simp only [setEntry, h, if_false, List.mem_cons] at hx
      rcases hx with hx | hx
      · exact Or.inr (by simp [hx])
      · rcases ih hx with h2 | h2
        · exact Or.inl h2
        · exact Or.inr (List.mem_cons_of_mem e h2)

lemma lookupStat_inv {progress : ProgressRecord} {pid : String}
    (hinv : ∀ e ∈ progress, e.2.passes ≤ e.2.attempts) :
    ((lookupStat progress pid).getD (AttemptStat.mk 0 0 none)).passes ≤
      ((lookupStat progress pid).getD (AttemptStat.mk 0 0 none)).attempts := by
  cases hl : lookupStat progress pid with
  | none => simp
  | some st =>
    unfold lookupStat at hl
    rw [Option.map_eq_some'] at hl
    obtain ⟨e, hfind, he⟩ := hl
    simpa [he] using hinv e (List.mem_of_find?_eq_some hfind)

/-! ### Claim C10 -/

/-- C10: recording an attempt increments the entry's `attempts` by exactly
1, increments `passes` by exactly 1 only when all tests passed, and sets
`last` to the current time (a fresh entry starts from `{attempts: 0,
passes: 0, last: null}`); consequently a progress record in which every
entry satisfies `passes ≤ attempts` still satisfies it after the
submission. -/
theorem recordAttempt_increments_and_preserves_inv (progress : ProgressRecord)
    (pid : String) (allPassed : Bool) (now : Int)
    (hinv : ∀ e ∈ progress, e.2.passes ≤ e.2.attempts) :
    (lookupStat (recordAttempt progress pid allPassed now) pid).getD
        (AttemptStat.mk 0 0 none) =
      AttemptStat.mk
        (((lookupStat progress pid).getD (AttemptStat.mk 0 0 none)).attempts + 1)
        (((lookupStat progress pid).getD (AttemptStat.mk 0 0 none)).passes +
          (if allPassed then 1 else 0))
        (some now) ∧
    ∀ e ∈ recordAttempt progress pid allPassed now, e.2.passes ≤ e.2.attempts := by
  constructor
  · unfold recordAttempt
    rw [lookupStat_setEntry]
    rfl
  · intro e he
    unfold recordAttempt at he
    rcases mem_setEntry he with h2 | h2
    · rw [h2]
      have hbase := @lookupStat_inv progress pid hinv
      dsimp
      split <;> omega
    · exact hinv e h2

/-- Witness for C10 at a concrete input: a record with one entry satisfying
the invariant, a passing submission on a fresh problem id. -/
theorem recordAttempt_increments_and_preserves_inv_witness :
    (∀ e ∈ [("a", AttemptStat.mk 2 1 (some 5))], e.2.passes ≤ e.2.attempts) ∧
    ((lookupStat (recordAttempt [("a", AttemptStat.mk 2 1 (some 5))] "b" true 99) "b").getD
        (AttemptStat.mk 0 0 none) =
      AttemptStat.mk
        (((lookupStat [("a", AttemptStat.mk 2 1 (some 5))] "b").getD
          (AttemptStat.mk 0 0 none)).attempts + 1)
        (((lookupStat [("a", AttemptStat.mk 2 1 (some 5))] "b").getD
          (AttemptStat.mk 0 0 none)).passes + (if true then 1 else 0))
        (some 99) ∧
      ∀ e ∈ recordAttempt [("a", AttemptStat.mk 2 1 (some 5))] "b" true 99,
        e.2.passes ≤ e.2.attempts) :=
  ⟨by decide,
    recordAttempt_increments_and_preserves_inv [("a", AttemptStat.mk 2 1 (some 5))] "b" true 99
      (by decide)⟩

end Tracker
